import Mathlib

/-!
Verification of the Run Data Capture & Persistence subsystem of the
ParseHub monitoring dashboard.  The definitions below are shallow
embeddings of the TypeScript source:

* `parseCSV` embeds `parseCSV` from `frontend/app/api/analytics/route.ts`
  (lines 11-50), modelled character by character.
* `saveRunToken` embeds `saveRunToken` from
  `frontend/app/api/projects/run-all/route.ts` (the single-project run route,
  lines 147-187 of the combined file).
* `runDataUrl` / `projectRunDataUrl` embed the URL construction of the
  two upstream run-data fetch sites (`analytics/route.ts` line 388 and
  `projects/[token]/[runToken]/route.ts` line 15).
* `fetchProjectDataFromParseHub` / `fetchAndStoreProjectData` embed the
  fetch-with-fallback and fetch-then-store pipeline of
  `analytics/route.ts` (lines 365-556), with network effects replaced by
  an explicit environment and exceptions by `Except`.
* `extractRecords`, `extractFileRecords` and `getProjectData` embed the
  JSON record extraction heuristics of `analytics/route.ts` (lines
  444-457) and of the file-based data reader (`getProjectData`,
  `src/unnamed/part_010` lines 151-212).
-/

set_option autoImplicit false

namespace ParseHub

/-! ## JSON values

A model of the JavaScript values flowing through the pipeline.  Numbers
are modelled as integers (no claim depends on fractional values). -/

inductive Json where
  | str : String → Json
  | num : Int → Json
  | bool : Bool → Json
  | null : Json
  | arr : List Json → Json
  | obj : List (String × Json) → Json

/-- `Array.isArray` on a JSON value. -/
def Json.isArray : Json → Bool
  | .arr _ => true
  | _ => false

/-- The element list of an array value (`[]` on non-arrays). -/
def Json.elems : Json → List Json
  | .arr xs => xs
  | _ => []

mutual

/-- A rendering of a JSON value to text, standing in for
`JSON.stringify(record, null, 2)` in `getProjectData`.  No claim depends
on the exact rendering, only on the result being a string. -/
def jsonStringify : Json → String
  | .str s => "\"" ++ s ++ "\""
  | .num n => toString n
  | .bool b => toString b
  | .null => "null"
  | .arr xs => "[" ++ jsonStringifyList xs ++ "]"
  | .obj fs => "\x7b" ++ jsonStringifyFields fs ++ "\x7d"

def jsonStringifyList : List Json → String
  | [] => ""
  | [x] => jsonStringify x
  | x :: y :: rest => jsonStringify x ++ "," ++ jsonStringifyList (y :: rest)

def jsonStringifyFields : List (String × Json) → String
  | [] => ""
  | [(k, v)] => "\"" ++ k ++ "\":" ++ jsonStringify v
  | (k, v) :: q :: rest =>
      "\"" ++ k ++ "\":" ++ jsonStringify v ++ "," ++ jsonStringifyFields (q :: rest)

end

/-! ## CSV parsing (`parseCSV`, analytics/route.ts lines 11-50)

The TypeScript works on JavaScript strings; we model strings as `List
Char` internally and convert at the boundary. -/

/-- The whitespace class of JavaScript `String.prototype.trim` (ASCII
part; the claims' inputs contain no exotic Unicode spaces). -/
def isJSSpace (c : Char) : Bool :=
  c = ' ' || c = '\t' || c = '\n' || c = '\r' || c = '\x0b' || c = '\x0c'

/-- JavaScript `s.trim()`. -/
def trimChars (cs : List Char) : List Char :=
  ((cs.dropWhile isJSSpace).reverse.dropWhile isJSSpace).reverse

/-- JavaScript `s.split(sep)` for a one-character separator (always
returns at least one piece; `"".split` yields `[""]`). -/
def splitOnChar (sep : Char) : List Char → List (List Char)
  | [] => [[]]
  | c :: rest =>
    match splitOnChar sep rest with
    | [] => [[]]
    | first :: others =>
      if c = sep then [] :: first :: others
      else (c :: first) :: others

/-- The `^"` alternative of `s.replace(/^"|"$/g, '')`: drop one leading
double quote when present. -/
def dropLeadQuote (cs : List Char) : List Char :=
  match cs with
  | c :: rest => if c = '"' then rest else c :: rest
  | [] => []

/-- The `"$` alternative: drop one trailing double quote when present. -/
def dropTailQuote (cs : List Char) : List Char :=
  if cs.getLast? = some '"' then cs.dropLast else cs

/-- JavaScript `s.replace(/^"|"$/g, '')`: removes one leading and one
trailing double quote when present (a lone `"` is removed once, by the
leading alternative). -/
def stripEdgeQuotes (cs : List Char) : List Char :=
  dropTailQuote (dropLeadQuote cs)

/-- `current.trim().replace(/^"|"$/g, '')` applied to a collected field. -/
def cleanField (cs : List Char) : List Char :=
  stripEdgeQuotes (trimChars cs)

/-- The character loop of `parseCSV` over one data line (lines 24-39):
a `"` toggles `inQuotes` and is dropped, a `,` outside quotes
(`char === ',' && !inQuotes`) ends the current field, anything else is
appended to the current field; each finished field is trimmed and
edge-quote-stripped. -/
def csvSplitGo : List Char → Bool → List Char → List (List Char)
  | [], _, current => [cleanField current]
  | c :: rest, inQuotes, current =>
    if c = '"' then csvSplitGo rest (!inQuotes) current
    else if c = ',' ∧ inQuotes = false then
      cleanField current :: csvSplitGo rest inQuotes []
    else csvSplitGo rest inQuotes (current ++ [c])

/-- The field values of one data line. -/
def csvLineValues (line : List Char) : List (List Char) :=
  csvSplitGo line false []

/-- `record[header] = values[index] || ''` for each header, in header
order (lines 42-45); a missing or empty value yields `''`. -/
def mkRecord (headers values : List (List Char)) : List (List Char × List Char) :=
  headers.enum.map (fun p => (p.2, values.getD p.1 []))

/-- The row loop of `parseCSV` (lines 19-47): lines that are blank after
trimming are skipped (`continue`), every other line yields exactly one
record. -/
def parseCSVRows (headers : List (List Char)) : List (List Char) → List (List (List Char × List Char))
  | [] => []
  | line :: rest =>
    if trimChars line = [] then parseCSVRows headers rest
    else mkRecord headers (csvLineValues line) :: parseCSVRows headers rest

/-- The header row: `lines[0].split(',').map(h => h.trim().replace(/^"|"$/g, ''))`. -/
def csvHeadersOf (cs : List Char) : List (List Char) :=
  match splitOnChar '\n' cs with
  | [] => []
  | headerLine :: _ => (splitOnChar ',' headerLine).map cleanField

/-- `parseCSV` at the character level: trim the whole text, split on
newlines, take the first line as headers and parse the remaining rows.
(The `lines.length === 0` early return of the source is unreachable
since `split` always yields at least one piece; the `[]` branch mirrors
it.) -/
def parseCSVChars (cs : List Char) : List (List (List Char × List Char)) :=
  match splitOnChar '\n' (trimChars cs) with
  | [] => []
  | headerLine :: rest =>
    parseCSVRows ((splitOnChar ',' headerLine).map cleanField) rest

/-- `parseCSV` from analytics/route.ts, with records as association
lists in header order. -/
def parseCSV (csvText : String) : List (List (String × String)) :=
  (parseCSVChars csvText.data).map
    (fun r => r.map (fun p => (String.mk p.1, String.mk p.2)))

/-! ## The active-runs list (`saveRunToken`, projects/run-all/route.ts)

One entry of `active_runs.json`'s `runs` array. -/

structure RunEntry where
  token : String
  project : String
  run_token : String
  status : String
  deriving DecidableEq, Repr

/-- `saveRunToken` from the single-project run route: `findIndex` the
first entry whose `token` matches, update its `run_token` and `status`
in place if found, otherwise push a fresh entry (lines 164-176).  The
recursion updates the first match and leaves the rest untouched,
exactly as `findIndex` + indexed assignment does. -/
def saveRunToken : List RunEntry → String → String → List RunEntry
  | [], token, runToken => [{ token := token, project := token, run_token := runToken, status := "started" }]
  | e :: rest, token, runToken =>
    if e.token == token then
      { e with run_token := runToken, status := "started" } :: rest
    else
      e :: saveRunToken rest token runToken

/-! ## Upstream URL construction (the two run-data fetch sites) -/

/-- Default `PARSEHUB_BASE_URL`. -/
def BASE_URL : String := "https://www.parsehub.com/api/v2"

/-- The data-fetch URL of the Data Fetcher
(analytics/route.ts line 388 and line 436): addressed by run token alone. -/
def runDataUrl (runToken : String) : String :=
  BASE_URL ++ "/runs/" ++ runToken ++ "/data"

/-- The data-fetch URL built by `GET
/api/projects/[token]/[runToken]` (projects/[token]/[runToken]/route.ts
line 15): combines the project token and the run token. -/
def projectRunDataUrl (token runToken : String) : String :=
  BASE_URL ++ "/projects/" ++ token ++ "/runs/" ++ runToken ++ "/data"

/-! ## The fetch-with-fallback pipeline (analytics/route.ts 365-556)

Network effects are replaced by an explicit environment recording what
each upstream request would return; exceptions are modelled with
`Except`, and the requests actually issued against the run-data
endpoint are logged so that ordering claims can be stated. -/

/-- `project.last_run` as used by the fetcher. -/
structure LastRun where
  run_token : String
  status : String

/-- The slice of the `GET /projects/{token}` response the fetcher reads. -/
structure Project where
  title : String
  last_run : Option LastRun

/-- One request against `GET /runs/{run_token}/data`. -/
inductive DataRequest where
  | csv
  | json
  deriving DecidableEq, Repr

/-- The upstream world: what the project request, the CSV-format data
request and the JSON-format data request would each return (`Except`
errors model thrown axios errors such as a 404; `.ok none` for the
project models a falsy response body). -/
structure FetchEnv where
  projectResult : Except String (Option Project)
  csvResult : Except String String
  jsonResult : Except String (List (String × Json))

/-- `'succeeded' || 'complete'` status test used for the overview block. -/
def statusDone (s : String) : Bool :=
  s == "succeeded" || s == "complete"

/-- The `overview` block of the analytics payload (lines 405-410 and
461-466). -/
structure Overview where
  total_runs : Nat
  completed_runs : Nat
  total_records_scraped : Nat
  progress_percentage : Nat
  deriving DecidableEq, Repr

/-- The fields of the analytics payload that the claims refer to
(`performance`, `recovery`, `data_quality`, `timeline` and `source` are
constant blocks not mentioned by any claim and are omitted). -/
structure AnalyticsResult where
  overview : Overview
  raw_data : List Json
  csv_data : Option String
  run_token : String

/-- A parsed CSV record as a JSON object (string-valued fields). -/
def parseCSVJson (csvText : String) : List Json :=
  (parseCSV csvText).map (fun r => Json.obj (r.map (fun p => (p.1, Json.str p.2))))

/-- The analytics payload built from the CSV branch (lines 404-431). -/
def csvAnalytics (lr : LastRun) (csvText : String) : AnalyticsResult :=
  let records := parseCSVJson csvText
  { overview :=
      { total_runs := 1
        completed_runs := if statusDone lr.status then 1 else 0
        total_records_scraped := records.length
        progress_percentage := if statusDone lr.status then 100 else 50 }
    raw_data := records
    csv_data := some csvText
    run_token := lr.run_token }

/-- The JSON-branch record extraction (lines 445-457): among the
top-level keys other than `offset` and `brand`, the first array-valued
field's elements become the record list; otherwise it stays empty. -/
def extractRecords (runData : List (String × Json)) : List Json :=
  let dataKeys := runData.filter (fun p => !(["offset", "brand"].contains p.1))
  match dataKeys.find? (fun p => p.2.isArray) with
  | some p => p.2.elems
  | none => []

/-- The analytics payload built from the JSON fallback branch
(lines 460-486). -/
def jsonAnalytics (lr : LastRun) (runData : List (String × Json)) : AnalyticsResult :=
  let records := extractRecords runData
  { overview :=
      { total_runs := 1
        completed_runs := if statusDone lr.status then 1 else 0
        total_records_scraped := records.length
        progress_percentage := if statusDone lr.status then 100 else 50 }
    raw_data := records
    csv_data := none
    run_token := lr.run_token }

/-- The body of `fetchProjectDataFromParseHub` before its outer
`try/catch`: an `Except.error` outcome is an exception still
propagating (the JSON request sits inside the `catch` of the CSV
attempt, so its failure is uncaught here); the second component logs
the run-data requests issued, in order.  The guard mirrors
`if (project.last_run && project.last_run.run_token)` — an empty
`run_token` is falsy. -/
def fetchInner (env : FetchEnv) : Except String (Option AnalyticsResult) × List DataRequest :=
  match env.projectResult with
  | .error e => (.error e, [])
  | .ok none => (.ok none, [])
  | .ok (some project) =>
    match project.last_run with
    | none => (.ok none, [])
    | some lr =>
      if lr.run_token = "" then (.ok none, [])
      else
        match env.csvResult with
        | .ok csvText => (.ok (some (csvAnalytics lr csvText)), [.csv])
        | .error _ =>
          match env.jsonResult with
          | .ok runData => (.ok (some (jsonAnalytics lr runData)), [.csv, .json])
          | .error e => (.error e, [.csv, .json])

/-- `fetchProjectDataFromParseHub`: the outer `catch (error)` turns any
escaped exception into `null` (line 491-494). -/
def fetchProjectDataFromParseHub (env : FetchEnv) : Option AnalyticsResult × List DataRequest :=
  match fetchInner env with
  | (.ok r, log) => (r, log)
  | (.error _, log) => (none, log)

/-- Result of `storeAnalyticsDataToDB` as seen by the caller. -/
structure StoreResult where
  success : Bool
  message : String
  deriving DecidableEq, Repr

/-- The response object built by `fetchAndStoreProjectData`
(lines 534-545); as in `AnalyticsResult`, constant blocks are omitted. -/
structure StoreResponse where
  overview : Overview
  raw_data : List Json
  csv_data : Option String
  stored : Bool
  storage_message : String

/-- `fetchAndStoreProjectData` (lines 498-556): a `null` fetch returns
`null` without touching the store; otherwise the store is invoked and
the response carries `stored := storageResult.success` and
`storage_message := storageResult.message` regardless of success.  The
second component records whether `storeAnalyticsDataToDB` was invoked. -/
def fetchAndStoreProjectData (env : FetchEnv) (store : StoreResult) :
    Option StoreResponse × Bool :=
  match (fetchProjectDataFromParseHub env).1 with
  | none => (none, false)
  | some d =>
      (some { overview := d.overview
              raw_data := d.raw_data
              csv_data := d.csv_data
              stored := store.success
              storage_message := store.message }, true)

/-! ## The file-based data reader (`getProjectData`, src/unnamed/part_010) -/

/-- The fixed key list scanned for an array value (line 174). -/
def knownArrayKeys : List String := ["product", "data", "items", "results", "records"]

/-- JavaScript property lookup `fileData[key]` on an object. -/
def jsLookup (fields : List (String × Json)) (k : String) : Option Json :=
  (fields.find? (fun p => p.1 == k)).map Prod.snd

/-- The key-scanning loop (lines 174-179): the first key of
`knownArrayKeys` whose value is an array wins (`break`), even if that
array is empty. -/
def firstKnownArray (fields : List (String × Json)) : Option (List Json) :=
  knownArrayKeys.findSome? (fun k =>
    match jsLookup fields k with
    | some (Json.arr xs) => some xs
    | _ => none)

/-- The record extraction of `getProjectData` (lines 167-185): a bare
array is taken whole; on an object the known keys are scanned, and if
the records are still empty while the object has at least one key, the
whole object becomes the single record; any other value yields no
records. -/
def extractFileRecords : Json → List Json
  | Json.arr xs => xs
  | Json.obj fields =>
    let records := (firstKnownArray fields).getD []
    if records.isEmpty && !fields.isEmpty then [Json.obj fields] else records
  | _ => []

/-- One run of the `data.runs` array built by `getProjectData`
(lines 188-200). -/
structure RunData where
  id : Nat
  run_token : String
  status : String
  pages : Nat
  start_time : Option String
  end_time : Option String
  records_count : Nat
  data : List (String × String)

/-- The response of `getProjectData`. -/
structure ProjectData where
  token : String
  runs : List RunData

/-- `getProjectData` (lines 151-212): `fileContent` is the parsed
content of `data_{token}.json` (`none` when the file is missing or its
parse throws — both leave `runs` empty).  A run is pushed only when
records were extracted; its `data` field keeps at most the first 100
records, each keyed `Record i` with a stringified value, while
`records_count` keeps the full count.  An empty `runs` array makes the
function return `null`. -/
def getProjectData (token : String) (fileContent : Option Json) : Option ProjectData :=
  match fileContent with
  | none => none
  | some fileData =>
    let records := extractFileRecords fileData
    if records.length > 0 then
      some
        { token := token
          runs :=
            [{ id := 1
               run_token := "latest"
               status := "complete"
               pages := 0
               start_time := none
               end_time := none
               records_count := records.length
               data := (records.take 100).enum.map (fun p =>
                 ("Record " ++ toString (p.1 + 1),
                  match p.2 with
                  | Json.str s => s
                  | r => jsonStringify r)) }] }
    else none

/-! ## Statement-level views of the CSV pipeline -/

/-- The line list `csvText.trim().split('\n')`. -/
def csvLines (csvText : String) : List (List Char) :=
  splitOnChar '\n' (trimChars csvText.data)

/-- The data lines (everything after the header line). -/
def csvDataLines (csvText : String) : List (List Char) :=
  (csvLines csvText).drop 1

/-- The parsed header names, as strings. -/
def csvHeaders (csvText : String) : List String :=
  match csvLines csvText with
  | [] => []
  | headerLine :: _ => ((splitOnChar ',' headerLine).map cleanField).map String.mk

/-! ## Helper lemmas -/

theorem mem_of_trimChars {c : Char} {cs : List Char} (h : c ∈ trimChars cs) : c ∈ cs := by
  unfold trimChars at h
  rw [List.mem_reverse] at h
  have h1 := (List.dropWhile_sublist isJSSpace).subset h
  rw [List.mem_reverse] at h1
  exact (List.dropWhile_sublist isJSSpace).subset h1

theorem mem_of_dropLeadQuote {c : Char} {cs : List Char} (h : c ∈ dropLeadQuote cs) : c ∈ cs := by
  cases cs with
  | nil => simp [dropLeadQuote] at h
  | cons a rest =>
    by_cases ha : a = '"'
    · rw [dropLeadQuote, if_pos ha] at h
      exact List.mem_cons_of_mem _ h
    · rwa [dropLeadQuote, if_neg ha] at h

theorem mem_of_dropTailQuote {c : Char} {cs : List Char} (h : c ∈ dropTailQuote cs) : c ∈ cs := by
  unfold dropTailQuote at h
  split at h
  · exact (List.dropLast_sublist cs).subset h
  · exact h

theorem mem_of_cleanField {c : Char} {cs : List Char} (h : c ∈ cleanField cs) : c ∈ cs :=
  mem_of_trimChars (mem_of_dropLeadQuote (mem_of_dropTailQuote h))

theorem quote_not_mem_cleanField {cs : List Char} (h : '"' ∉ cs) : '"' ∉ cleanField cs :=
  fun hc => h (mem_of_cleanField hc)

theorem csvSplitGo_no_quote (cs : List Char) : ∀ (inQ : Bool) (acc : List Char),
    '"' ∉ acc → ∀ v ∈ csvSplitGo cs inQ acc, '"' ∉ v := by
  induction cs with
  | nil =>
    intro inQ acc hacc v hv
    simp only [csvSplitGo, List.mem_singleton] at hv
    subst hv
    exact quote_not_mem_cleanField hacc
  | cons c rest ih =>
    intro inQ acc hacc v hv
    by_cases hq : c = '"'
    · rw [csvSplitGo, if_pos hq] at hv
      exact ih _ _ hacc v hv
    · by_cases hc : c = ',' ∧ inQ = false
      · rw [csvSplitGo, if_neg hq, if_pos hc] at hv
        rcases List.mem_cons.mp hv with rfl | h1
        · exact quote_not_mem_cleanField hacc
        · exact ih _ _ (by simp) v h1
      · rw [csvSplitGo, if_neg hq, if_neg hc] at hv
        refine ih _ _ ?_ v hv
        intro hm
        rcases List.mem_append.mp hm with h1 | h1
        · exact hacc h1
        · exact hq (List.mem_singleton.mp h1).symm

theorem getD_default_or_mem {α : Type} (l : List α) (i : Nat) (d : α) :
    l.getD i d = d ∨ l.getD i d ∈ l := by
  rw [List.getD_eq_getElem?_getD]
  cases h : l[i]? with
  | none => simp
  | some a =>
    right
    obtain ⟨hlt, heq⟩ := List.getElem?_eq_some_iff.mp h
    simpa [heq] using List.getElem_mem hlt

theorem mkRecord_snd_no_quote (headers values : List (List Char))
    (hv : ∀ v ∈ values, '"' ∉ v) :
    ∀ p ∈ mkRecord headers values, '"' ∉ p.2 := by
  intro p hp
  simp only [mkRecord, List.mem_map] at hp
  obtain ⟨q, _, rfl⟩ := hp
  rcases getD_default_or_mem values q.1 ([] : List Char) with h | h
  · rw [h]; simp
  · exact hv _ h

theorem parseCSVRows_no_quote (headers : List (List Char)) (lines : List (List Char)) :
    ∀ r ∈ parseCSVRows headers lines, ∀ p ∈ r, '"' ∉ p.2 := by
  induction lines with
  | nil => simp [parseCSVRows]
  | cons line rest ih =>
    intro r hr
    rw [parseCSVRows] at hr
    split at hr
    · exact ih r hr
    · rcases List.mem_cons.mp hr with rfl | h1
      · exact mkRecord_snd_no_quote _ _ (csvSplitGo_no_quote line false [] (by simp))
      · exact ih r h1

theorem parseCSVChars_no_quote (cs : List Char) :
    ∀ r ∈ parseCSVChars cs, ∀ p ∈ r, '"' ∉ p.2 := by
  intro r hr
  rw [parseCSVChars] at hr
  split at hr
  · simp at hr
  · exact parseCSVRows_no_quote _ _ r hr

theorem mkRecord_keys (headers values : List (List Char)) :
    (mkRecord headers values).map Prod.fst = headers := by
  rw [mkRecord, List.map_map]
  have : (Prod.fst ∘ fun p : Nat × List Char => (p.2, values.getD p.1 [])) = Prod.snd := by
    funext p; rfl
  rw [this, List.enum_map_snd]

theorem parseCSVRows_length (headers : List (List Char)) (lines : List (List Char)) :
    (parseCSVRows headers lines).length
      = (lines.filter (fun l => !(trimChars l).isEmpty)).length := by
  induction lines with
  | nil => rfl
  | cons line rest ih =>
    by_cases h : trimChars line = []
    · rw [parseCSVRows, if_pos h, List.filter_cons]
      simp [h, ih]
    · rw [parseCSVRows, if_neg h, List.filter_cons]
      simp [List.isEmpty_iff, h, ih]

theorem parseCSVRows_keys (headers : List (List Char)) (lines : List (List Char)) :
    ∀ r ∈ parseCSVRows headers lines, r.map Prod.fst = headers := by
  induction lines with
  | nil => simp [parseCSVRows]
  | cons line rest ih =>
    intro r hr
    rw [parseCSVRows] at hr
    split at hr
    · exact ih r hr
    · rcases List.mem_cons.mp hr with rfl | h1
      · exact mkRecord_keys _ _
      · exact ih r h1

theorem mkRecord_getElem? (headers values : List (List Char)) (i : Nat)
    (hi : i < headers.length) (hvi : values.length ≤ i) :
    (mkRecord headers values)[i]? = some (headers.getD i [], ([] : List Char)) := by
  rw [mkRecord, List.getElem?_map, List.getElem?_enum]
  have hh : headers[i]? = some (headers.getD i []) := by
    rw [List.getD_eq_getElem?_getD]
    cases h : headers[i]? with
    | none => exact absurd (List.getElem?_eq_none_iff.mp h) (Nat.not_le.mpr hi)
    | some a => rfl
  rw [hh]
  simp
  rw [← List.getD_eq_getElem?_getD]
  exact List.getD_eq_default values _ hvi

/-! ## Claim theorems: the CSV normalizer -/

/-- C6: normalizing `name,price\n"Widget, Deluxe",19.99` yields exactly
one record mapping `name` to `Widget, Deluxe` (embedded comma kept,
surrounding quotes removed) and `price` to `19.99`. -/
theorem parseCSV_quoted_comma_roundtrip :
    parseCSV "name,price\n\"Widget, Deluxe\",19.99" =
      [[("name", "Widget, Deluxe"), ("price", "19.99")]] := by decide

/-- C7 counterexample: the claim says a doubled quote inside a quoted
field decodes to one literal quote, so `"He said ""hi"""` should give
`He said "hi"`; the parser instead drops every quote character (the
quote toggles `inQuotes` and is never appended), giving `He said hi`. -/
theorem parseCSV_doubled_quote_counterexample :
    parseCSV "msg\n\"He said \"\"hi\"\"\"" = [[("msg", "He said hi")]] ∧
    parseCSV "msg\n\"He said \"\"hi\"\"\"" ≠ [[("msg", "He said \"hi\"")]] := by decide

/-- C7 (amended): a doubled quote inside a quoted field is removed
entirely rather than decoded to one literal quote — quote characters
never appear in any parsed field value, and the field
`"He said ""hi"""` normalizes to `He said hi`. -/
theorem parseCSV_doubled_quote_removed :
    parseCSV "msg\n\"He said \"\"hi\"\"\"" = [[("msg", "He said hi")]] ∧
    ∀ (csvText : String), ∀ r ∈ parseCSV csvText, ∀ p ∈ r, '"' ∉ p.2.data := by
  refine ⟨by decide, ?_⟩
  intro csvText r hr p hp
  simp only [parseCSV, List.mem_map] at hr
  obtain ⟨r0, hr0, rfl⟩ := hr
  simp only [List.mem_map] at hp
  obtain ⟨p0, hp0, rfl⟩ := hp
  exact parseCSVChars_no_quote _ r0 hr0 p0 hp0

/-- Witness for C7's theorem at the concrete doubled-quote row. -/
theorem parseCSV_doubled_quote_removed_witness :
    '"' ∉ ("He said hi" : String).data :=
  parseCSV_doubled_quote_removed.2 "msg\n\"He said \"\"hi\"\"\""
    [("msg", "He said hi")] (by decide) ("msg", "He said hi") (by decide)

/-- C8: no non-blank data line is ever dropped (record count equals the
count of non-blank data lines), every record is keyed by the header
fields in order, and a row with fewer values than headers fills each
missing trailing field with the empty string. -/
theorem parseCSV_keeps_all_rows (csvText : String) :
    (parseCSV csvText).length
        = ((csvDataLines csvText).filter (fun l => !(trimChars l).isEmpty)).length ∧
    (∀ r ∈ parseCSV csvText, r.map Prod.fst = csvHeaders csvText) ∧
    (∀ (headers values : List (List Char)) (i : Nat), i < headers.length →
        values.length ≤ i →
        (mkRecord headers values)[i]? = some (headers.getD i [], ([] : List Char))) := by
  refine ⟨?_, ?_, fun headers values i hi hvi => mkRecord_getElem? headers values i hi hvi⟩
  · rw [parseCSV, List.length_map, parseCSVChars]
    cases hs : splitOnChar '\n' (trimChars csvText.data) with
    | nil => simp [csvDataLines, csvLines, hs]
    | cons headerLine rest =>
      rw [parseCSVRows_length]
      simp [csvDataLines, csvLines, hs]
  · intro r hr
    simp only [parseCSV, List.mem_map] at hr
    obtain ⟨r0, hr0, rfl⟩ := hr
    rw [parseCSVChars] at hr0
    split at hr0
    · simp at hr0
    · next headerLine rest hs =>
      rw [List.map_map]
      have hmap : (Prod.fst ∘ fun p : List Char × List Char => (String.mk p.1, String.mk p.2))
          = String.mk ∘ Prod.fst := by
        funext p; rfl
      rw [hmap, ← List.map_map, parseCSVRows_keys _ _ r0 hr0, csvHeaders, csvLines, hs]

/-- Witness for C8's theorem at a concrete short row. -/
theorem parseCSV_keeps_all_rows_witness :
    (mkRecord [['a'], ['b']] [['1']])[1]? = some (['b'], ([] : List Char)) :=
  (parseCSV_keeps_all_rows "a,b\n1").2.2 [['a'], ['b']] [['1']] 1 (by decide) (by decide)

/-! ## Claim theorems: the active-runs upsert -/

theorem saveRunToken_tokens_mem (l : List RunEntry) (t r : String) :
    ∀ x ∈ (saveRunToken l t r).map RunEntry.token, x ∈ l.map RunEntry.token ∨ x = t := by
  induction l with
  | nil =>
    intro x hx
    simp only [saveRunToken, List.map_cons, List.map_nil, List.mem_singleton] at hx
    exact Or.inr hx
  | cons e rest ih =>
    intro x hx
    rw [saveRunToken] at hx
    split at hx
    · rcases List.mem_cons.mp hx with rfl | h1
      · exact Or.inl (List.mem_cons_self _ _)
      · exact Or.inl (List.mem_cons_of_mem _ h1)
    · rcases List.mem_cons.mp hx with rfl | h1
      · exact Or.inl (List.mem_cons_self _ _)
      · rcases ih x h1 with h2 | h2
        · exact Or.inl (List.mem_cons_of_mem _ h2)
        · exact Or.inr h2

theorem filter_token_eq_nil {l : List RunEntry} {t : String}
    (h : t ∉ l.map RunEntry.token) :
    l.filter (fun e => e.token == t) = [] := by
  induction l with
  | nil => rfl
  | cons e rest ih =>
    rw [List.map_cons, List.mem_cons] at h
    push_neg at h
    rw [List.filter_cons, if_neg (by simp [Ne.symm h.1]), ih h.2]

/-- C2 (amended): starting from any active-runs list with pairwise
distinct tokens, `saveRunToken` keeps the tokens pairwise distinct,
leaves exactly one entry for the given project token, and that entry
holds the latest `run_token` with status `started`. -/
theorem saveRunToken_upsert (l : List RunEntry) (t r : String)
    (h : (l.map RunEntry.token).Nodup) :
    ((saveRunToken l t r).map RunEntry.token).Nodup ∧
    ((saveRunToken l t r).filter (fun e => e.token == t)).length = 1 ∧
    (∀ e ∈ saveRunToken l t r, e.token = t → e.run_token = r ∧ e.status = "started") := by
  induction l with
  | nil =>
    refine ⟨by simp [saveRunToken], by simp [saveRunToken], ?_⟩
    intro e he _
    simp only [saveRunToken, List.mem_singleton] at he
    subst he
    exact ⟨rfl, rfl⟩
  | cons a rest ih =>
    rw [List.map_cons, List.nodup_cons] at h
    obtain ⟨hna, hrest⟩ := h
    by_cases hat : a.token = t
    · have hbranch : saveRunToken (a :: rest) t r
          = { a with run_token := r, status := "started" } :: rest := by
        rw [saveRunToken, if_pos (beq_iff_eq.mpr hat)]
      refine ⟨?_, ?_, ?_⟩
      · rw [hbranch, List.map_cons]
        exact List.nodup_cons.mpr ⟨hna, hrest⟩
      · rw [hbranch, List.filter_cons, if_pos (by simpa using hat),
          filter_token_eq_nil (hat ▸ hna)]
        rfl
      · rw [hbranch]
        intro x hx hxt
        rcases List.mem_cons.mp hx with rfl | hx1
        · exact ⟨rfl, rfl⟩
        · exact absurd (List.mem_map.mpr ⟨x, hx1, hxt.trans hat.symm⟩) hna
    · have hbranch : saveRunToken (a :: rest) t r = a :: saveRunToken rest t r := by
        rw [saveRunToken, if_neg (by simpa using hat)]
      obtain ⟨ih1, ih2, ih3⟩ := ih hrest
      refine ⟨?_, ?_, ?_⟩
      · rw [hbranch, List.map_cons]
        refine List.nodup_cons.mpr ⟨?_, ih1⟩
        intro hmem
        rcases saveRunToken_tokens_mem rest t r _ hmem with hh | hh
        · exact hna hh
        · exact hat hh
      · rw [hbranch, List.filter_cons, if_neg (by simpa using hat)]
        exact ih2
      · rw [hbranch]
        intro x hx hxt
        rcases List.mem_cons.mp hx with rfl | hx1
        · exact absurd hxt hat
        · exact ih3 x hx1 hxt

/-- Witness for C2's amended theorem on a concrete duplicate-free list. -/
theorem saveRunToken_upsert_witness :
    (([{ token := "a", project := "a", run_token := "r1", status := "started" }] :
        List RunEntry).map RunEntry.token).Nodup ∧
    ((((saveRunToken
        [{ token := "a", project := "a", run_token := "r1", status := "started" }]
        "a" "r9")).map RunEntry.token).Nodup ∧
      ((saveRunToken
        [{ token := "a", project := "a", run_token := "r1", status := "started" }]
        "a" "r9").filter (fun e => e.token == "a")).length = 1 ∧
      (∀ e ∈ saveRunToken
        [{ token := "a", project := "a", run_token := "r1", status := "started" }]
        "a" "r9", e.token = "a" → e.run_token = "r9" ∧ e.status = "started")) :=
  ⟨by decide,
   saveRunToken_upsert
     [{ token := "a", project := "a", run_token := "r1", status := "started" }]
     "a" "r9" (by decide)⟩

/-- C2 counterexample: from a prior list that already holds two entries
with the same token, `saveRunToken` (which updates only the first
`findIndex` match) leaves the duplicate pair in place, so the claim's
"for every prior state ... the list never contains two entries with the
same token" fails. -/
theorem saveRunToken_duplicate_counterexample :
    ¬ ((saveRunToken
          [{ token := "a", project := "a", run_token := "r1", status := "started" },
           { token := "a", project := "a", run_token := "r2", status := "started" }]
          "b" "r3").map RunEntry.token).Nodup := by decide

/-! ## Claim theorems: run-data endpoint addressing -/

/-- C1 (code bug): the `GET /api/projects/[token]/[runToken]` route
builds its upstream data-fetch URL from the project token and the run
token together, which differs from the run-token-only address that the
Data Fetcher uses and that the spec mandates. -/
theorem projectRunDataUrl_combines_both_tokens :
    projectRunDataUrl "tok123" "run456"
        = "https://www.parsehub.com/api/v2/projects/tok123/runs/run456/data" ∧
    runDataUrl "run456" = "https://www.parsehub.com/api/v2/runs/run456/data" ∧
    projectRunDataUrl "tok123" "run456" ≠ runDataUrl "run456" := by decide

/-! ## Claim theorems: the fetch-with-fallback pipeline -/

/-- C3: when a run exists and both the CSV-format and the JSON-format
data requests fail, the exception raised by the JSON request is still
propagating inside the fetcher body, the fetcher's outer catch turns it
into a `null` (`none`) result, and the fetch-and-store pipeline returns
`null` without ever invoking the durable store. -/
theorem both_formats_fail_gives_null (env : FetchEnv) (store : StoreResult)
    (p : Project) (lr : LastRun) (ec ej : String)
    (hp : env.projectResult = Except.ok (some p))
    (hlr : p.last_run = some lr)
    (hrt : lr.run_token ≠ "")
    (hc : env.csvResult = Except.error ec)
    (hj : env.jsonResult = Except.error ej) :
    fetchInner env = (Except.error ej, [DataRequest.csv, DataRequest.json]) ∧
    (fetchProjectDataFromParseHub env).1 = none ∧
    fetchAndStoreProjectData env store = (none, false) := by
  have h1 : fetchInner env = (Except.error ej, [DataRequest.csv, DataRequest.json]) := by
    simp [fetchInner, hp, hlr, hc, hj, hrt]
  have h2 : (fetchProjectDataFromParseHub env).1 = none := by
    rw [fetchProjectDataFromParseHub, h1]
  refine ⟨h1, h2, ?_⟩
  rw [fetchAndStoreProjectData, h2]

/-- Witness for C3's theorem at a concrete double-404 environment. -/
theorem both_formats_fail_gives_null_witness :
    fetchAndStoreProjectData
      (FetchEnv.mk
        (Except.ok (some (Project.mk "P" (some (LastRun.mk "r1" "complete")))))
        (Except.error "Request failed with status code 404")
        (Except.error "Request failed with status code 404"))
      (StoreResult.mk true "ok") = (none, false) :=
  (both_formats_fail_gives_null _ _ _ _ _ _ rfl rfl (by decide) rfl rfl).2.2

/-- C4: the data phase issues requests in the order CSV first, JSON only
after a CSV failure; a CSV success never triggers a JSON request; and a
`null` outcome with the data phase reached means both formats failed —
the fetcher never gives up on the CSV failure alone. -/
theorem fetch_prefers_csv_then_falls_back (env : FetchEnv) :
    ((fetchProjectDataFromParseHub env).2 = [] ∨
     (fetchProjectDataFromParseHub env).2 = [DataRequest.csv] ∨
     (fetchProjectDataFromParseHub env).2 = [DataRequest.csv, DataRequest.json]) ∧
    (DataRequest.json ∈ (fetchProjectDataFromParseHub env).2 →
       ∃ e, env.csvResult = Except.error e) ∧
    (∀ csvText, env.csvResult = Except.ok csvText →
       (fetchProjectDataFromParseHub env).2 ≠ [DataRequest.csv, DataRequest.json]) ∧
    ((fetchProjectDataFromParseHub env).1 = none →
       (fetchProjectDataFromParseHub env).2 = [] ∨
       ((∃ e, env.csvResult = Except.error e) ∧ (∃ e, env.jsonResult = Except.error e))) := by
  obtain ⟨pr, cr, jr⟩ := env
  cases pr with
  | error e => simp [fetchProjectDataFromParseHub, fetchInner]
  | ok po =>
    cases po with
    | none => simp [fetchProjectDataFromParseHub, fetchInner]
    | some p =>
      cases hlr : p.last_run with
      | none => simp [fetchProjectDataFromParseHub, fetchInner, hlr]
      | some lr =>
        by_cases hrt : lr.run_token = ""
        · simp [fetchProjectDataFromParseHub, fetchInner, hlr, hrt]
        · cases cr with
          | ok csvText => simp [fetchProjectDataFromParseHub, fetchInner, hlr, hrt]
          | error ec =>
            cases jr with
            | ok runData => simp [fetchProjectDataFromParseHub, fetchInner, hlr, hrt]
            | error ej => simp [fetchProjectDataFromParseHub, fetchInner, hlr, hrt]

/-- Witness for C4's theorem: in an environment whose CSV request fails
and whose JSON request succeeds, the JSON request was issued, so the
theorem yields the CSV failure. -/
theorem fetch_prefers_csv_then_falls_back_witness :
    ∃ e, (FetchEnv.mk
        (Except.ok (some { title := "P", last_run := some { run_token := "r1", status := "complete" } }))
        (Except.error "Request failed with status code 404")
        (Except.ok [])).csvResult = Except.error e :=
  (fetch_prefers_csv_then_falls_back _).2.1 (by decide)

/-- C5: whenever the fetch produced data, the caller's response exists
(it is never the `null` of the no-data case) and carries
`stored := storageResult.success` together with the storage message, so
a failed durable-store write is reported distinctly. -/
theorem storage_failure_surfaced (env : FetchEnv) (store : StoreResult) (d : AnalyticsResult)
    (h : (fetchProjectDataFromParseHub env).1 = some d) :
    (fetchAndStoreProjectData env store).1 ≠ none ∧
    (fetchAndStoreProjectData env store).2 = true ∧
    (fetchAndStoreProjectData env store).1 =
      some { overview := d.overview, raw_data := d.raw_data, csv_data := d.csv_data,
             stored := store.success, storage_message := store.message } ∧
    (∀ resp, (fetchAndStoreProjectData env store).1 = some resp →
       resp.stored = store.success ∧ resp.storage_message = store.message) := by
  have hb : fetchAndStoreProjectData env store =
      (some { overview := d.overview, raw_data := d.raw_data, csv_data := d.csv_data,
              stored := store.success, storage_message := store.message }, true) := by
    rw [fetchAndStoreProjectData, h]
  refine ⟨by rw [hb]; simp, by rw [hb], by rw [hb], ?_⟩
  intro resp hresp
  rw [hb] at hresp
  simp only [Option.some.injEq] at hresp
  subst hresp
  exact ⟨rfl, rfl⟩

/-- Witness for C5's theorem: a successful CSV fetch combined with a
failed store yields a present response, not the no-data `null`. -/
theorem storage_failure_surfaced_witness :
    (fetchAndStoreProjectData
      (FetchEnv.mk
        (Except.ok (some (Project.mk "P" (some (LastRun.mk "r1" "complete")))))
        (Except.ok "a,b\n1,2")
        (Except.error "unused"))
      (StoreResult.mk false "db write failed")).1 ≠ none :=
  (storage_failure_surfaced
    (FetchEnv.mk
      (Except.ok (some (Project.mk "P" (some (LastRun.mk "r1" "complete")))))
      (Except.ok "a,b\n1,2")
      (Except.error "unused"))
    (StoreResult.mk false "db write failed")
    (csvAnalytics (LastRun.mk "r1" "complete") "a,b\n1,2") rfl).1

/-! ## Claim theorems: the nested-object normalizers -/

/-- C9 counterexample: the analytics JSON fallback has no single-record
fallback — an object with one non-empty scalar field and no array field
yields zero records, not one; and the file reader scans only its fixed
key list, so an object whose only array field is named `foo` becomes a
single whole-object record instead of contributing its two elements. -/
theorem json_normalizer_counterexample :
    extractRecords [("a", Json.str "hello")] = [] ∧
    (extractRecords [("a", Json.str "hello")]).length ≠ 1 ∧
    extractFileRecords (Json.obj [("foo", Json.arr [Json.num 1, Json.num 2])])
      = [Json.obj [("foo", Json.arr [Json.num 1, Json.num 2])]] ∧
    (extractFileRecords (Json.obj [("foo", Json.arr [Json.num 1, Json.num 2])])).length ≠ 2 :=
  ⟨rfl, by decide, rfl, by decide⟩

/-- `extractRecords` skips a leading field that is excluded or not
array-valued. -/
theorem extractRecords_cons_skip (a : String × Json) (t : List (String × Json))
    (ha : a.1 = "offset" ∨ a.1 = "brand" ∨ a.2.isArray = false) :
    extractRecords (a :: t) = extractRecords t := by
  simp only [extractRecords, List.filter_cons]
  by_cases hpred : ((fun p : String × Json => !(["offset", "brand"].contains p.1)) a) = true
  · rw [if_pos hpred]
    have harr : a.2.isArray = false := by
      rcases ha with h | h | h
      · exact absurd hpred (by simp [h])
      · exact absurd hpred (by simp [h])
      · exact h
    have hnotarr : ¬ ((fun p : String × Json => p.2.isArray) a = true) := by simp [harr]
    rw [@List.find?_cons_of_neg _ (fun p : String × Json => p.2.isArray) a
        (t.filter (fun p => !(["offset", "brand"].contains p.1))) hnotarr]
  · rw [if_neg hpred]

/-- `extractRecords` takes a leading non-excluded array-valued field. -/
theorem extractRecords_cons_array (k : String) (xs : List Json) (t : List (String × Json))
    (hko : k ≠ "offset") (hkb : k ≠ "brand") :
    extractRecords ((k, Json.arr xs) :: t) = xs := by
  simp only [extractRecords, List.filter_cons]
  have hpred : ((fun p : String × Json => !(["offset", "brand"].contains p.1))
      (k, Json.arr xs)) = true := by simp [hko, hkb]
  rw [if_pos hpred]
  have hisarr : (fun p : String × Json => p.2.isArray) (k, Json.arr xs) = true := rfl
  rw [@List.find?_cons_of_pos _ (fun p : String × Json => p.2.isArray) (k, Json.arr xs)
      (t.filter (fun p => !(["offset", "brand"].contains p.1))) hisarr]
  rfl

/-- The fixed-key scan of the file reader finds nothing over a key list
none of whose keys looks up to an array value. -/
theorem findSome?_knownKeys_none (fields : List (String × Json)) (ks : List String)
    (h : ∀ k' ∈ ks, ∀ v, jsLookup fields k' = some v → v.isArray = false) :
    ks.findSome? (fun k =>
      match jsLookup fields k with
      | some (Json.arr xs) => some xs
      | _ => none) = none := by
  induction ks with
  | nil => rfl
  | cons k rest ih =>
    rw [List.findSome?_cons]
    have hrest : ∀ k' ∈ rest, ∀ v, jsLookup fields k' = some v → v.isArray = false :=
      fun k' hk' => h k' (List.mem_cons_of_mem _ hk')
    cases hl : jsLookup fields k with
    | none => simpa using ih hrest
    | some v =>
      cases v with
      | arr xs =>
        have := h k (List.mem_cons_self _ _) _ hl
        simp [Json.isArray] at this
      | str s => simpa using ih hrest
      | num n => simpa using ih hrest
      | bool b => simpa using ih hrest
      | null => simpa using ih hrest
      | obj fs => simpa using ih hrest

/-- The fixed-key scan takes the first key whose value is an array. -/
theorem firstKnownArray_found (kl₁ kl₂ : List String) (k : String)
    (fields : List (String × Json)) (xs : List Json)
    (hdec : knownArrayKeys = kl₁ ++ k :: kl₂)
    (hearlier : ∀ k' ∈ kl₁, ∀ v, jsLookup fields k' = some v → v.isArray = false)
    (hk : jsLookup fields k = some (Json.arr xs)) :
    firstKnownArray fields = some xs := by
  rw [firstKnownArray, hdec, List.findSome?_append,
    findSome?_knownKeys_none fields kl₁ hearlier, List.findSome?_cons, hk]
  rfl

/-- C9 (amended): the analytics normalizer takes the elements of the
first array-valued top-level field whose key is neither `offset` nor
`brand`, and yields the empty record list — with no whole-object
fallback — when no such field exists.  The file reader scans the fixed
keys `product`, `data`, `items`, `results`, `records` in order and
takes the first array value found, breaking the scan even on an empty
array: a non-empty first-found array contributes its elements; if no
scanned key holds an array, or the first-found array is empty, a
non-empty object becomes one whole-object record; an empty object
yields the empty record list. -/
theorem json_record_extraction :
    (∀ (l₁ l₂ : List (String × Json)) (k : String) (xs : List Json),
        (∀ p ∈ l₁, p.1 = "offset" ∨ p.1 = "brand" ∨ p.2.isArray = false) →
        k ≠ "offset" → k ≠ "brand" →
        extractRecords (l₁ ++ (k, Json.arr xs) :: l₂) = xs) ∧
    (∀ fields : List (String × Json),
        (∀ p ∈ fields, p.1 = "offset" ∨ p.1 = "brand" ∨ p.2.isArray = false) →
        extractRecords fields = []) ∧
    (∀ (kl₁ kl₂ : List String) (k : String) (fields : List (String × Json)) (xs : List Json),
        knownArrayKeys = kl₁ ++ k :: kl₂ →
        (∀ k' ∈ kl₁, ∀ v, jsLookup fields k' = some v → v.isArray = false) →
        jsLookup fields k = some (Json.arr xs) → xs ≠ [] →
        extractFileRecords (Json.obj fields) = xs) ∧
    (∀ fields : List (String × Json), fields ≠ [] →
        (∀ k ∈ knownArrayKeys, ∀ v, jsLookup fields k = some v → v.isArray = false) →
        extractFileRecords (Json.obj fields) = [Json.obj fields]) ∧
    (∀ (kl₁ kl₂ : List String) (k : String) (fields : List (String × Json)),
        knownArrayKeys = kl₁ ++ k :: kl₂ →
        (∀ k' ∈ kl₁, ∀ v, jsLookup fields k' = some v → v.isArray = false) →
        jsLookup fields k = some (Json.arr []) → fields ≠ [] →
        extractFileRecords (Json.obj fields) = [Json.obj fields]) ∧
    extractFileRecords (Json.obj []) = [] := by
  refine ⟨?_, ?_, ?_, ?_, ?_, rfl⟩
  · intro l₁ l₂ k xs hall hko hkb
    induction l₁ with
    | nil => exact extractRecords_cons_array k xs l₂ hko hkb
    | cons a rest ih =>
      rw [List.cons_append,
        extractRecords_cons_skip a _ (hall a (List.mem_cons_self _ _))]
      exact ih (fun p hp => hall p (List.mem_cons_of_mem _ hp))
  · intro fields hall
    induction fields with
    | nil => rfl
    | cons a rest ih =>
      rw [extractRecords_cons_skip a _ (hall a (List.mem_cons_self _ _))]
      exact ih (fun p hp => hall p (List.mem_cons_of_mem _ hp))
  · intro kl₁ kl₂ k fields xs hdec hearlier hk hxs
    have hf := firstKnownArray_found kl₁ kl₂ k fields xs hdec hearlier hk
    simp [extractFileRecords, hf, List.isEmpty_iff, hxs]
  · intro fields hne hall
    have hf : firstKnownArray fields = none :=
      findSome?_knownKeys_none fields knownArrayKeys hall
    simp [extractFileRecords, hf, hne]
  · intro kl₁ kl₂ k fields hdec hearlier hk hne
    have hf := firstKnownArray_found kl₁ kl₂ k fields [] hdec hearlier hk
    simp [extractFileRecords, hf, hne]

/-- Witness for C9's amended theorem: the analytics normalizer takes the
first qualifying array field's elements past an excluded key and a
scalar field, and the file reader extracts a non-empty array under the
fixed key `data` past a non-array `product` field. -/
theorem json_record_extraction_witness :
    extractRecords
        [("offset", Json.num 0), ("x", Json.str "s"), ("items", Json.arr [Json.num 7])]
      = [Json.num 7] ∧
    extractFileRecords
        (Json.obj [("product", Json.str "s"), ("data", Json.arr [Json.num 3])])
      = [Json.num 3] := by
  constructor
  · refine json_record_extraction.1 [("offset", Json.num 0), ("x", Json.str "s")] []
      "items" [Json.num 7] ?_ (by decide) (by decide)
    intro p hp
    rcases List.mem_cons.mp hp with rfl | hp1
    · exact Or.inl rfl
    · rw [List.mem_singleton] at hp1
      subst hp1
      exact Or.inr (Or.inr rfl)
  · refine json_record_extraction.2.2.1 ["product"] ["items", "results", "records"] "data"
      [("product", Json.str "s"), ("data", Json.arr [Json.num 3])] [Json.num 3]
      rfl ?_ rfl (by simp)
    intro k' hk' v hv
    rw [List.mem_singleton] at hk'
    subst hk'
    simp only [jsLookup, List.find?] at hv
    simp at hv
    subst hv
    rfl

/-- C10: whenever the file reader finds records, the single run it
returns reports the full record count in `records_count`, while its
`data` array keeps only the first `min 100 n` records, keyed
`Record 1`, `Record 2`, ... with string values. -/
theorem getProjectData_caps_at_100 (token : String) (fileData : Json)
    (h : extractFileRecords fileData ≠ []) :
    ∃ run, getProjectData token (some fileData) = some { token := token, runs := [run] } ∧
      run.records_count = (extractFileRecords fileData).length ∧
      run.data.length = min 100 (extractFileRecords fileData).length ∧
      run.data.map Prod.fst
        = (List.range (min 100 (extractFileRecords fileData).length)).map
            (fun i => "Record " ++ toString (i + 1)) := by
  have hpos : (extractFileRecords fileData).length > 0 := List.length_pos.mpr h
  have key : getProjectData token (some fileData)
      = some { token := token, runs :=
          [{ id := 1, run_token := "latest", status := "complete", pages := 0,
             start_time := none, end_time := none,
             records_count := (extractFileRecords fileData).length,
             data := ((extractFileRecords fileData).take 100).enum.map (fun p =>
               ("Record " ++ toString (p.1 + 1),
                match p.2 with
                | Json.str s => s
                | r => jsonStringify r)) }] } := by
    simp only [getProjectData]
    rw [if_pos hpos]
  refine ⟨_, key, rfl, ?_, ?_⟩
  · rw [List.length_map, List.enum_length, List.length_take]
  · rw [List.map_map]
    have hcomp : (Prod.fst ∘ fun p : Nat × Json =>
        (("Record " ++ toString (p.1 + 1)),
         match p.2 with
         | Json.str s => s
         | r => jsonStringify r))
        = (fun i => "Record " ++ toString (i + 1)) ∘ Prod.fst := by
      funext p; rfl
    rw [hcomp, ← List.map_map, List.enum_eq_zip_range,
      List.map_fst_zip _ _ (by rw [List.length_range]),
      List.length_take]

/-- Witness for C10's theorem on a 150-element array payload. -/
theorem getProjectData_caps_at_100_witness :
    extractFileRecords (Json.arr (List.replicate 150 Json.null)) ≠ [] ∧
    ∃ run, getProjectData "tok" (some (Json.arr (List.replicate 150 Json.null)))
        = some { token := "tok", runs := [run] } ∧
      run.records_count = (extractFileRecords (Json.arr (List.replicate 150 Json.null))).length ∧
      run.data.length
        = min 100 (extractFileRecords (Json.arr (List.replicate 150 Json.null))).length ∧
      run.data.map Prod.fst
        = (List.range
            (min 100 (extractFileRecords (Json.arr (List.replicate 150 Json.null))).length)).map
            (fun i => "Record " ++ toString (i + 1)) := by
  have h : extractFileRecords (Json.arr (List.replicate 150 Json.null)) ≠ [] := by
    simp [extractFileRecords]
  exact ⟨h, getProjectData_caps_at_100 "tok" _ h⟩

end ParseHub
